import Mathlib

/-!
Verification of the error-capture core of `sentry-rust` (`sentry-core/src/error.rs`).

Strings are embedded as `List Char`.  The error values the Rust code is generic
over (`E : Error + ?Sized`) expose a debug text, a display text, and an optional
source; they are embedded as the inductive `Err`.  Records from the protocol
crate (`Event`, `Exception`, `Level`) and the hub/dispatch layer are not under
the sources provided, so they are modelled from the spec where noted.
-/

/-- Unicode White_Space test, as used by Rust `char::is_whitespace`
(and hence by `str::trim`). -/
def isRustWhitespace (c : Char) : Bool :=
  let n := c.toNat
  (0x09 ≤ n && n ≤ 0x0D) || n = 0x20 || n = 0x85 || n = 0xA0 || n = 0x1680 ||
    (0x2000 ≤ n && n ≤ 0x200A) || n = 0x2028 || n = 0x2029 || n = 0x202F ||
    n = 0x205F || n = 0x3000

/-- Embeds Rust `str::trim_start`: drop leading whitespace. -/
def rustTrimStart (s : List Char) : List Char :=
  s.dropWhile isRustWhitespace

/-- Embeds Rust `str::trim_end`: drop trailing whitespace. -/
def rustTrimEnd (s : List Char) : List Char :=
  (s.reverse.dropWhile isRustWhitespace).reverse

/-- Embeds Rust `str::trim`: drop leading and trailing whitespace. -/
def rustTrim (s : List Char) : List Char :=
  rustTrimEnd (rustTrimStart s)

/-- The delimiter set of `parse_type_from_debug`: space, opening parenthesis,
opening curly brace (`Char.ofNat 123`), carriage-return, newline. -/
def isDelim (c : Char) : Bool :=
  c = ' ' || c = '(' || c = Char.ofNat 123 || c = '\r' || c = '\n'

/-- Embeds Rust `str::split` with the delimiter-set pattern: the list of
maximal delimiter-free chunks.  As in Rust, the result is never empty
(splitting the empty string yields one empty token). -/
def splitOnDelim : List Char → List (List Char)
  | [] => [[]]
  | c :: cs =>
    if isDelim c then
      [] :: splitOnDelim cs
    else
      match splitOnDelim cs with
      | [] => [[c]]
      | t :: ts => (c :: t) :: ts

/-- Embeds `parse_type_from_debug` up to the `unwrap`: the `.next()` of the
split iterator, with `none` standing for the (unreachable) panic, and the
selected token trimmed. -/
def parse_type_from_debugOpt (d : List Char) : Option (List Char) :=
  ((splitOnDelim d).head?).map rustTrim

/-- Embeds `parse_type_from_debug`: first token of the split, trimmed.
The `unwrap` of the source is the `Option.getD` (shown unreachable below). -/
def parse_type_from_debug (d : List Char) : List Char :=
  (parse_type_from_debugOpt d).getD []

/-- An error value as the generic `E : Error + ?Sized` of the source exposes
it: a debug text (the debug formatting of `err`), a display text
(`err.to_string()`), and an optional source link. -/
inductive Err : Type where
  | mk (debug : List Char) (display : List Char) (source : Option Err)

/-- The debug representation of the error. -/
def Err.debug : Err → List Char
  | .mk d _ _ => d

/-- The display representation of the error. -/
def Err.display : Err → List Char
  | .mk _ v _ => v

/-- The `Error::source` link of the error. -/
def Err.source : Err → Option Err
  | .mk _ _ s => s

/-- Depth of the cause chain: the error itself plus its chained sources. -/
def Err.depth : Err → Nat
  | .mk _ _ none => 1
  | .mk _ _ (some e) => e.depth + 1

/-- The innermost cause: follow source links until none remains. -/
def Err.rootCause : Err → Err
  | .mk d v none => .mk d v none
  | .mk _ _ (some e) => e.rootCause

/-- The walk loop of `event_from_error`: the captured error first, then each
source in turn, stopping when the source link is absent. -/
def errChain : Err → List Err
  | .mk d v none => [.mk d v none]
  | .mk d v (some e) => .mk d v (some e) :: errChain e

/-- Modelled from the spec: the closed severity enum of the protocol crate
(not under the provided sources); its default is Info. -/
inductive Level : Type where
  | Debug
  | Info
  | Warning
  | Error
  | Fatal
deriving DecidableEq

/-- Modelled from the spec: the `Exception` record of the protocol crate (not
under the provided sources): a type string, an optional message string, and
free-form extension fields defaulted/empty (represented by `module`). -/
structure Exception where
  ty : List Char
  value : Option (List Char) := none
  module : Option (List Char) := none
deriving DecidableEq

/-- Modelled from the spec: the `Event` record of the protocol crate (not
under the provided sources): the exception sequence, the severity level, and
free-form extension fields defaulted/empty (represented by `message`,
`fingerprint`, `tags` and `extra`). -/
structure Event where
  exception : List Exception := []
  level : Level := Level.Info
  message : Option (List Char) := none
  fingerprint : List (List Char) := []
  tags : List (List Char × List Char) := []
  extra : List (List Char × List Char) := []
deriving DecidableEq

/-- Embeds `exception_from_error`: type name parsed from the debug text,
value always the display text, remaining fields defaulted. -/
def exception_from_error (err : Err) : Exception :=
  let dbg := err.debug
  { ty := parse_type_from_debug dbg
    value := some err.display }

/-- Embeds `event_from_error`: walk the chain collecting one exception per
element, reverse so the root cause comes first, set the level to Error and
default every other field. -/
def event_from_error (err : Err) : Event :=
  let exceptions := (errChain err).map exception_from_error
  { exception := exceptions.reverse
    level := Level.Error }

/-- Modelled from the spec: the event identifier returned by capture; a
128-bit value in the source, with nil reserved for "not sent". -/
abbrev Uuid := Nat

/-- Modelled from the spec: `Uuid::nil()`, the reserved "not sent" value. -/
def Uuid.nil : Uuid := 0

/-- Modelled from the spec: the client installed at the top of the active
context stack; `gen_id` is the identifier its transport assigns to the next
dispatched event. -/
structure Client where
  gen_id : Uuid

/-- Modelled from the spec: the active context (hub); only the optionally
installed client of its top of stack is relevant to this core. -/
structure Hub where
  client : Option Client

/-- Modelled from the spec: `Hub::capture_event`, the outbound forwarding
call; returns the assigned identifier together with the list of dispatched
events (the observable side effect). -/
def Hub.capture_event (hub : Hub) (ev : Event) : Uuid × List Event :=
  match hub.client with
  | some c => (c.gen_id, [ev])
  | none => (Uuid.nil, [])

/-- Embeds `Hub::capture_error`: if the top of stack has a client, build the
event and forward it, otherwise return the nil identifier with no dispatch. -/
def Hub.capture_error (hub : Hub) (err : Err) : Uuid × List Event :=
  if (hub.client).isSome then
    let event := event_from_error err
    hub.capture_event event
  else
    (Uuid.nil, [])

/-- A cause graph over abstract node identifiers: the `source` links the walk
loop of `event_from_error` follows, together with the debug and display texts
of each node.  Unlike `Err`, this model can contain cycles, so the walk loop
is embedded with explicit fuel to study its termination. -/
structure SourceGraph where
  debug : Nat → List Char
  display : Nat → List Char
  source : Nat → Option Nat

/-- Iterate the source link `n` times from node `i`. -/
def SourceGraph.sourceIter (g : SourceGraph) : Nat → Nat → Option Nat
  | 0, i => some i
  | n + 1, i =>
    match g.source i with
    | none => none
    | some j => g.sourceIter n j

/-- The walk loop of `event_from_error` with explicit fuel: push the current
node, follow its source link, stop when the link is absent; `none` when the
fuel runs out before the loop exits. -/
def SourceGraph.walkFuel (g : SourceGraph) : Nat → Nat → Option (List Nat)
  | 0, _ => none
  | fuel + 1, i =>
    match g.source i with
    | none => some [i]
    | some j => (g.walkFuel fuel j).map fun l => i :: l

/-- The exception built from a node of the graph, as `exception_from_error`
builds it. -/
def SourceGraph.exceptionAt (g : SourceGraph) (i : Nat) : Exception :=
  { ty := parse_type_from_debug (g.debug i)
    value := some (g.display i) }

/-- `event_from_error` over the cause graph with explicit fuel: `none` when
the walk loop does not exit within the fuel. -/
def SourceGraph.eventFromErrorFuel (g : SourceGraph) (fuel i : Nat) : Option Event :=
  (g.walkFuel fuel i).map fun chain =>
    { exception := (chain.map g.exceptionAt).reverse
      level := Level.Error }

/-- A two-node acyclic cause graph: node 0 is caused by node 1, and node 1
has no source. -/
def gChain : SourceGraph :=
  { debug := fun _ => []
    display := fun _ => []
    source := fun i => if i = 0 then some 1 else none }

/-- A cause graph where every node is its own source: a reference cycle. -/
def gCyc : SourceGraph :=
  { debug := fun _ => []
    display := fun _ => []
    source := fun i => some i }

theorem splitOnDelim_head (d : List Char) :
    ∃ ts, splitOnDelim d = (d.takeWhile fun c => !isDelim c) :: ts := by
  induction d with
  | nil => exact ⟨[], rfl⟩
  | cons c cs ih =>
    rcases ih with ⟨ts, hts⟩
    by_cases h : isDelim c
    · refine ⟨splitOnDelim cs, ?_⟩
      simp [splitOnDelim, h, List.takeWhile]
    · refine ⟨ts, ?_⟩
      simp only [splitOnDelim, h, if_neg, hts, List.takeWhile]
      simp [h]

theorem splitOnDelim_head? (d : List Char) :
    (splitOnDelim d).head? = some (d.takeWhile fun c => !isDelim c) := by
  rcases splitOnDelim_head d with ⟨ts, hts⟩
  simp [hts]

theorem parse_type_from_debug_eq (d : List Char) :
    parse_type_from_debug d = rustTrim (d.takeWhile fun c => !isDelim c) := by
  simp [parse_type_from_debug, parse_type_from_debugOpt, splitOnDelim_head? d]

theorem rustTrim_eq_nil_of_all (s : List Char)
    (h : ∀ c ∈ s, isRustWhitespace c) : rustTrim s = [] := by
  have h1 : rustTrimStart s = [] := List.dropWhile_eq_nil_iff.mpr h
  simp [rustTrim, h1, rustTrimEnd]

theorem all_ws_of_rustTrim_eq_nil (s : List Char) (h : rustTrim s = []) :
    ∀ c ∈ s, isRustWhitespace c := by
  have h1 : (rustTrimStart s).reverse.dropWhile isRustWhitespace = [] := by
    simpa [rustTrim, rustTrimEnd] using h
  have h2 : ∀ c ∈ rustTrimStart s, isRustWhitespace c := by
    intro c hc
    exact List.dropWhile_eq_nil_iff.mp h1 c (List.mem_reverse.mpr hc)
  intro c hc
  rw [← List.takeWhile_append_dropWhile (p := isRustWhitespace) (l := s)] at hc
  rcases List.mem_append.mp hc with hl | hr
  · exact List.mem_takeWhile_imp hl
  · exact h2 c hr

theorem errChain_cons : ∀ e : Err, ∃ t, errChain e = e :: t
  | .mk d v none => ⟨[], rfl⟩
  | .mk d v (some e) => ⟨errChain e, rfl⟩

theorem errChain_head? (e : Err) : (errChain e).head? = some e := by
  rcases errChain_cons e with ⟨t, ht⟩
  simp [ht]

theorem errChain_length : ∀ e : Err, (errChain e).length = e.depth
  | .mk d v none => by simp [errChain, Err.depth]
  | .mk d v (some e) => by simp [errChain, Err.depth, errChain_length e]

theorem errChain_getLast? : ∀ e : Err, (errChain e).getLast? = some e.rootCause
  | .mk d v none => rfl
  | .mk d v (some e) => by
    rcases errChain_cons e with ⟨t, ht⟩
    have ih := errChain_getLast? e
    simp only [errChain, Err.rootCause]
    rw [ht] at ih ⊢
    rw [List.getLast?_cons_cons]
    exact ih

theorem walkFuel_isSome_of_chain (g : SourceGraph) :
    ∀ (n i j : Nat), g.sourceIter n i = some j → g.source j = none →
      (g.walkFuel (n + 1) i).isSome := by
  intro n
  induction n with
  | zero =>
    intro i j hiter hend
    have hij : i = j := by simpa [SourceGraph.sourceIter] using hiter
    subst hij
    simp [SourceGraph.walkFuel, hend]
  | succ n ih =>
    intro i j hiter hend
    rcases hk : g.source i with _ | k
    · simp [SourceGraph.sourceIter, hk] at hiter
    · have hiter' : g.sourceIter n k = some j := by
        simpa [SourceGraph.sourceIter, hk] using hiter
      have hsome := ih k j hiter' hend
      simp only [SourceGraph.walkFuel, hk]
      simpa using hsome

theorem walkFuel_self_loop (g : SourceGraph) (i : Nat) (h : g.source i = some i) :
    ∀ fuel, g.walkFuel fuel i = none := by
  intro fuel
  induction fuel with
  | zero => rfl
  | succ n ih => simp [SourceGraph.walkFuel, h, ih]

/-- Claim C1: for every error whose cause chain has finite depth N, the Event
built by `event_from_error` has an exception sequence of length N, ordered
root-cause-first: index 0 is the innermost cause and index N-1 is the
originally captured error. -/
theorem C1_exception_chain_order (e : Err) :
    (event_from_error e).exception.length = e.depth ∧
      (event_from_error e).exception.head? =
        some (exception_from_error e.rootCause) ∧
      (event_from_error e).exception.getLast? = some (exception_from_error e) := by
  refine ⟨?_, ?_, ?_⟩
  · simp [event_from_error, errChain_length e]
  · simp [event_from_error, List.head?_reverse, List.getLast?_map, errChain_getLast? e]
  · simp [event_from_error, List.getLast?_reverse, List.head?_map, errChain_head? e]

/-- Claim C2: `parse_type_from_debug` returns the token before the first
occurrence of any delimiter in the set of space, opening parenthesis, opening
curly brace, carriage-return and newline, with that token trimmed; a string
with no delimiter yields the entire trimmed string, and the three listed
examples hold. -/
theorem C2_parse_first_token :
    (∀ d : List Char,
        parse_type_from_debug d = rustTrim (d.takeWhile fun c => !isDelim c)) ∧
      (∀ d : List Char, (∀ c ∈ d, isDelim c = false) →
        parse_type_from_debug d = rustTrim d) ∧
      parse_type_from_debug ("MyStruct".toList) = "MyStruct".toList ∧
      parse_type_from_debug ("MyStruct(5)".toList) = "MyStruct".toList ∧
      parse_type_from_debug ("MyStruct \x7b field: 1 \x7d".toList) =
        "MyStruct".toList := by
  refine ⟨parse_type_from_debug_eq, ?_, by decide, by decide, by decide⟩
  intro d h
  rw [parse_type_from_debug_eq]
  congr 1
  rw [List.takeWhile_eq_self_iff]
  intro c hc
  simp [h c hc]

/-- Witness for C2: the delimiter-free string "Abc" is returned whole,
trimmed. -/
theorem C2_parse_first_token_witness :
    (∀ c ∈ ("Abc".toList), isDelim c = false) ∧
      parse_type_from_debug ("Abc".toList) = rustTrim ("Abc".toList) :=
  ⟨by decide, C2_parse_first_token.2.1 ("Abc".toList) (by decide)⟩

/-- Claim C3, counterexample: on the input consisting of a newline followed by
"MyStruct", `parse_type_from_debug` yields the empty string, not "MyStruct". -/
theorem C3_leading_newline_counterexample :
    parse_type_from_debug ("\nMyStruct".toList) = [] ∧
      "MyStruct".toList ≠ ([] : List Char) := by
  constructor
  · decide
  · decide

/-- Claim C3 as amended: for an input consisting of a leading newline followed
by any remainder, `parse_type_from_debug` yields the empty string — the
selected token is the empty one before the newline, and trimming it cannot
recover the subsequent token. -/
theorem C3_leading_newline_yields_empty (rest : List Char) :
    parse_type_from_debug ('\n' :: rest) = [] := by
  rw [parse_type_from_debug_eq]
  have h : isDelim '\n' = true := by decide
  simp [List.takeWhile_cons, h, rustTrim, rustTrimStart, rustTrimEnd]

/-- Claim C4: capturing an error on a hub whose top of stack has no client
returns the nil identifier and dispatches nothing. -/
theorem C4_no_client_noop (hub : Hub) (err : Err) (h : hub.client = none) :
    hub.capture_error err = (Uuid.nil, []) := by
  simp [Hub.capture_error, h]

/-- Witness for C4: a concrete clientless hub and a concrete error. -/
theorem C4_no_client_noop_witness :
    (Hub.mk none).client = none ∧
      (Hub.mk none).capture_error (Err.mk ("E".toList) ("e".toList) none) =
        (Uuid.nil, []) :=
  ⟨rfl, C4_no_client_noop (Hub.mk none) (Err.mk ("E".toList) ("e".toList) none) rfl⟩

/-- Claim C5: the walk loop of `event_from_error` terminates exactly on finite
acyclic chains — if iterating the source link n times from the root reaches a
node with no source, the fuelled walk completes within n+1 steps; while on a
node that is its own source it completes at no fuel at all. -/
theorem C5_walk_termination :
    (∀ (g : SourceGraph) (n i j : Nat),
        g.sourceIter n i = some j → g.source j = none →
          (g.eventFromErrorFuel (n + 1) i).isSome) ∧
      (∀ (g : SourceGraph) (i : Nat), g.source i = some i →
        ∀ fuel, g.eventFromErrorFuel fuel i = none) := by
  constructor
  · intro g n i j hiter hend
    have h := walkFuel_isSome_of_chain g n i j hiter hend
    simp only [SourceGraph.eventFromErrorFuel]
    simpa using h
  · intro g i h fuel
    simp [SourceGraph.eventFromErrorFuel, walkFuel_self_loop g i h fuel]

/-- Witness for C5: the two-node acyclic graph terminates with fuel 2, the
self-loop graph yields no event at fuel 5. -/
theorem C5_walk_termination_witness :
    gChain.sourceIter 1 0 = some 1 ∧ gChain.source 1 = none ∧
      (gChain.eventFromErrorFuel 2 0).isSome ∧
      gCyc.source 0 = some 0 ∧ gCyc.eventFromErrorFuel 5 0 = none :=
  ⟨by decide, by decide,
    C5_walk_termination.1 gChain 1 0 1 (by decide) (by decide),
    rfl, C5_walk_termination.2 gCyc 0 rfl 5⟩

/-- Claim C6: an error with no source yields exactly one Exception whose value
is the display text and whose type is parsed from the debug text; and every
exception of every built event has a present value. -/
theorem C6_single_exception_value_present :
    (∀ d v : List Char,
        (event_from_error (Err.mk d v none)).exception =
          [{ ty := parse_type_from_debug d, value := some v }]) ∧
      (∀ e : Err, ∀ ex ∈ (event_from_error e).exception, ex.value.isSome) := by
  constructor
  · intro d v
    rfl
  · intro e ex hex
    simp only [event_from_error, List.mem_reverse, List.mem_map] at hex
    rcases hex with ⟨a, _, rfl⟩
    rfl

/-- Witness for C6: a concrete sourceless error, its exception being a member
of the built event with a present value. -/
theorem C6_single_exception_value_present_witness :
    exception_from_error (Err.mk ("E".toList) ("boom".toList) none) ∈
        (event_from_error (Err.mk ("E".toList) ("boom".toList) none)).exception ∧
      (exception_from_error (Err.mk ("E".toList) ("boom".toList) none)).value.isSome :=
  ⟨by decide,
    C6_single_exception_value_present.2 (Err.mk ("E".toList) ("boom".toList) none)
      (exception_from_error (Err.mk ("E".toList) ("boom".toList) none)) (by decide)⟩

/-- Claim C7: the split always yields a first token, so the `unwrap` inside
`parse_type_from_debug` is unreachable; an input that is empty or trims to
empty yields the empty type name rather than a failure. -/
theorem C7_parse_total :
    (∀ d : List Char, (parse_type_from_debugOpt d).isSome) ∧
      (∀ d : List Char, rustTrim d = [] → parse_type_from_debugOpt d = some []) := by
  constructor
  · intro d
    simp [parse_type_from_debugOpt, splitOnDelim_head? d]
  · intro d h
    have hall : ∀ c ∈ d, isRustWhitespace c := all_ws_of_rustTrim_eq_nil d h
    have htok : ∀ c ∈ (d.takeWhile fun c => !isDelim c), isRustWhitespace c := by
      intro c hc
      exact hall c ((List.takeWhile_sublist _).subset hc)
    simp [parse_type_from_debugOpt, splitOnDelim_head? d,
      rustTrim_eq_nil_of_all _ htok]

/-- Witness for C7: the all-whitespace input of a single tab trims to empty
and parses to the empty type name. -/
theorem C7_parse_total_witness :
    rustTrim ("\t".toList) = [] ∧
      parse_type_from_debugOpt ("\t".toList) = some [] :=
  ⟨by decide, C7_parse_total.2 ("\t".toList) (by decide)⟩

/-- Claim C8: every event built by `event_from_error` carries the Error
severity level. -/
theorem C8_level_is_error (e : Err) :
    (event_from_error e).level = Level.Error := rfl

/-- Claim C9: every field of the built event other than the exception
sequence and the level keeps its default/empty value. -/
theorem C9_other_fields_default (e : Err) :
    (event_from_error e).message = none ∧
      (event_from_error e).fingerprint = [] ∧
      (event_from_error e).tags = [] ∧
      (event_from_error e).extra = [] :=
  ⟨rfl, rfl, rfl, rfl⟩

/-- Claim C10: an input whose first character is a delimiter parses to the
empty type name: the selected token is the empty one before that delimiter. -/
theorem C10_leading_delim_yields_empty (c : Char) (rest : List Char)
    (h : isDelim c = true) : parse_type_from_debug (c :: rest) = [] := by
  rw [parse_type_from_debug_eq]
  simp [List.takeWhile_cons, h, rustTrim, rustTrimStart, rustTrimEnd]

/-- Witness for C10: a leading space before "MyStruct" parses to empty. -/
theorem C10_leading_delim_yields_empty_witness :
    isDelim ' ' = true ∧
      parse_type_from_debug (' ' :: "MyStruct".toList) = [] :=
  ⟨by decide, C10_leading_delim_yields_empty ' ' ("MyStruct".toList) (by decide)⟩
